import Mathlib

/-!
Shallow embedding of the osu! song-browser core (playback position engine,
metadata/background resolution, playlist store) together with theorems
checking the natural-language specification against the code.

Python floats for wall-clock times are modelled as rationals; Python `int(x)`
truncation toward zero is `pyInt`; Python string/regex operations are modelled
at the ASCII level on `List Char`.  Library calls that can raise or return
library objects (mutagen, pygame) are modelled by explicit oracle structures
recording the observable outcome of each guarded call site.
-/

namespace OsuBrowser

/-- Outcome of a Python expression that may raise: `ok v` or an exception. -/
inductive PyRes (α : Type) where
  | ok : α → PyRes α
  | exn : PyRes α
deriving DecidableEq, Repr

/-- Python `int(x)` on a float: truncation toward zero. -/
def pyInt (q : ℚ) : ℤ := if q < 0 then ⌈q⌉ else ⌊q⌋

/-- ASCII model of Python's `\s` / `str.strip()` whitespace class. -/
def pyIsSpace (c : Char) : Bool :=
  c == ' ' || c == '\t' || c == '\n' || c == '\r' || c == Char.ofNat 11 || c == Char.ofNat 12

/-- The separator class `[\s._-]` of `strip_leading_numbers`. -/
def isSepChar (c : Char) : Bool :=
  pyIsSpace c || c == '.' || c == '_' || c == '-'

/-- `strip_leading_numbers` (osu_mp3_browser.py:35-39):
`re.sub(r'^\s*\d+[\s._-]*', '', s)` preceded by an empty-string guard.
The anchored regex matches greedily: optional whitespace, at least one digit,
then a run of separator characters; on no match the string is unchanged. -/
def strip_leading_numbers (s : String) : String :=
  if s = "" then s
  else
    let rest := s.data.dropWhile pyIsSpace
    match rest with
    | [] => s
    | c :: _ =>
      if c.isDigit then String.mk ((rest.dropWhile Char.isDigit).dropWhile isSepChar)
      else s

/-- Whether the regex `^\s*\d+[\s._-]*` matches `s` at all (used to state when
a further application of `strip_leading_numbers` strips again). -/
def leadingNumMatch (s : String) : Bool :=
  match s.data.dropWhile pyIsSpace with
  | [] => false
  | c :: _ => c.isDigit

/-- Python truthiness of an optional string (`None` and `""` are falsy). -/
def truthyS : Option String → Bool
  | none => false
  | some s => s ≠ ""

/-- The metadata dict for one file: keys `title`/`artist`/`album`/`duration`,
each present only when set (`get_mp3_metadata` only stores truthy values). -/
structure Meta where
  title : Option String := none
  artist : Option String := none
  album : Option String := none
  duration : Option ℤ := none
deriving DecidableEq, Repr

/-- `self._metadata` / the `metadata_dict` argument: a Python dict keyed by
the file path, modelled as an insertion-ordered association list. -/
abbrev MDict := List (String × Meta)

/-- `metadata_dict.get(key, {})`. -/
def mdGet (md : MDict) (k : String) : Meta :=
  match md with
  | [] => {}
  | (k', v) :: rest => if k' = k then v else mdGet rest k

/-- `metadata_dict[key] = v` (replace if present, else append). -/
def mdSet (md : MDict) (k : String) (v : Meta) : MDict :=
  match md with
  | [] => [(k, v)]
  | (k', v') :: rest => if k' = k then (k, v) :: rest else (k', v') :: mdSet rest k v

/-- Observable results of the guarded expressions on the mutagen easy view
(`MutagenFile(path, easy=True)`): the three `get(...)` field reads, which share
one `try` block, and the stream-info length read in its own `try` block. -/
structure EasyView where
  titleG : PyRes (Option String)
  artistG : PyRes (Option String)
  albumG : PyRes (Option String)
  lenG : PyRes (Option ℤ)
deriving DecidableEq, Repr

/-- The single `try` block assigning `title`, `artist`, `album` sequentially:
an exception midway keeps the assignments already made and abandons the rest. -/
def easyTriple (v : EasyView) : Option String × Option String × Option String :=
  match v.titleG with
  | .exn => (none, none, none)
  | .ok t =>
    match v.artistG with
    | .exn => (t, none, none)
    | .ok a =>
      match v.albumG with
      | .exn => (t, a, none)
      | .ok al => (t, a, al)

/-- `duration = int(audio_easy.info.length) if ... else None`, guarded by
`try/except: pass` with `duration` initialised to `None`. -/
def easyDur (v : EasyView) : Option ℤ :=
  match v.lenG with
  | .exn => none
  | .ok d => d

/-- Observable results on the raw mutagen view (`MutagenFile(path)`):
whether `.tags` is non-None, and the guarded
`str(audio_raw.tags.get('TIT2','')) or None` expression. -/
structure RawView where
  hasTags : Bool
  tit2 : PyRes (Option String)
deriving DecidableEq, Repr

/-- Everything the tag library can report for one file.  `loadEasy`/`loadRaw`
are the two `MutagenFile(...)` calls, which are *not* individually guarded:
`.exn` there escapes to the outer handler of `get_mp3_metadata`.
`.ok none` models a falsy (`None`) library object. -/
structure TagSrc where
  hasMutagen : Bool
  loadEasy : PyRes (Option EasyView)
  loadRaw : PyRes (Option RawView)
deriving DecidableEq, Repr

/-- The final dict assembly of `get_mp3_metadata`: each field is stored only
when truthy (`if title: meta['title'] = title`, ..., `if duration:`). -/
def assembleMeta (t a al : Option String) (d : Option ℤ) : Meta :=
  let m0 : Meta := {}
  let m1 := if truthyS t then { m0 with title := t } else m0
  let m2 := if truthyS a then { m1 with artist := a } else m1
  let m3 := if truthyS al then { m2 with album := al } else m2
  match d with
  | some x => if x ≠ 0 then { m3 with duration := some x } else m3
  | none => m3

/-- The `title`/`artist`/`album` triple obtained from the easy view (all
`none` when the library object is falsy). -/
def easyFields : Option EasyView → Option String × Option String × Option String
  | none => (none, none, none)
  | some v => easyTriple v

/-- The duration obtained from the easy view. -/
def easyLen : Option EasyView → Option ℤ
  | none => none
  | some v => easyDur v

/-- The guarded TIT2 title read on the raw view (`None` when the object is
falsy, has no tags, or the read raises). -/
def rawTitle : Option RawView → Option String
  | some rv =>
    if rv.hasTags then
      match rv.tit2 with
      | .exn => none
      | .ok x => x
    else none
  | none => none

/-- The `if not title:` raw-frame fallback block: keep a truthy easy title,
else load the raw view (whose load may raise) and read TIT2. -/
def titleWithRaw (lr : PyRes (Option RawView)) (t0 : Option String) : PyRes (Option String) :=
  if truthyS t0 then .ok t0
  else
    match lr with
    | .exn => .exn
    | .ok ro => .ok (rawTitle ro)

/-- `get_mp3_metadata` (osu_mp3_browser/metadata.py:22-74): best-effort tag
lookup with filename-stem fallback for the title; any exception escaping the
inner guards hits the outer `except Exception: return {}`. -/
def get_mp3_metadata (src : TagSrc) (stem : String) : Meta :=
  if ¬ src.hasMutagen then {}
  else
    match src.loadEasy with
    | .exn => {}
    | .ok eo =>
      match titleWithRaw src.loadRaw (easyFields eo).1 with
      | .exn => {}
      | .ok t1 =>
        let t2 : Option String :=
          if truthyS t1 then t1 else some (strip_leading_numbers stem)
        assembleMeta t2 (easyFields eo).2.1 (easyFields eo).2.2 (easyLen eo)

/-- Results of the two duration probes used by `ensure_duration`:
`some n` is the computed `int(... or 0)` (possibly `0`), `none` covers a raised
exception, an unavailable library, or a library object without stream info. -/
structure DurProbe where
  mutagenLen : Option ℤ
  sndLen : Option ℤ
deriving DecidableEq, Repr

/-- `ensure_duration` (osu_mp3_browser/metadata.py:130-167, and the identical
method OsuMP3Browser.ensure_duration): return the cached truthy duration, else
cache and return the first nonzero probe (mutagen stream info, then
`pygame.mixer.Sound`), else return 0 caching nothing. -/
def ensure_duration (pr : DurProbe) (md : MDict) (path : String) : MDict × ℤ :=
  let meta := mdGet md path
  let dur := meta.duration.getD 0
  if dur ≠ 0 then (md, dur)
  else
    let viaSnd : MDict × ℤ :=
      match pr.sndLen with
      | some l => if l ≠ 0 then (mdSet md path { meta with duration := some l }, l) else (md, 0)
      | none => (md, 0)
    match pr.mutagenLen with
    | some l => if l ≠ 0 then (mdSet md path { meta with duration := some l }, l) else viaSnd
    | none => viaSnd

/-- The metadata-cache write performed per discovered file by
`OsuMP3Browser.scan_and_populate` (osu_mp3_browser.py:192-194):
`self._metadata[str(full)] = get_mp3_metadata(full) if HAS_MUTAGEN else {}`. -/
def scan_store (src : TagSrc) (md : MDict) (path stem : String) : MDict :=
  mdSet md path (if src.hasMutagen then get_mp3_metadata src stem else {})

/-! ## Background resolution (osu_mp3_browser/metadata.py:77-127) -/

/-- Model of `str.startswith` via character lists. -/
def charsPre : List Char → List Char → Bool
  | [], _ => true
  | _ :: _, [] => false
  | a :: as, b :: bs => a == b && charsPre as bs

/-- `s.startswith(pre)`. -/
def pyStartsWith (s pre : String) : Bool :=
  charsPre pre.data s.data

/-- `s.strip()`: remove leading and trailing whitespace. -/
def pyStrip (s : String) : String :=
  String.mk (((s.data.dropWhile pyIsSpace).reverse.dropWhile pyIsSpace).reverse)

/-- `s.strip('"')`: remove leading and trailing double-quote characters. -/
def stripQuotes (s : String) : String :=
  String.mk (((s.data.dropWhile (· == '"')).reverse.dropWhile (· == '"')).reverse)

/-- `s.lower()` (ASCII). -/
def pyLower (s : String) : String :=
  String.mk (s.data.map Char.toLower)

/-- `s.split(sep)` for a one-character separator, on character lists. -/
def splitChars (sep : Char) : List Char → List (List Char)
  | [] => [[]]
  | c :: cs =>
    let r := splitChars sep cs
    if c = sep then [] :: r
    else
      match r with
      | [] => [[c]]
      | h :: t => (c :: h) :: t

/-- `s.split(',')`. -/
def pySplitComma (s : String) : List String :=
  (splitChars ',' s.data).map String.mk

/-- `pathlib.Path.suffix` of the final `/`-separated component: the part from
the last dot, empty when there is no dot, the dot is the first character of
the component, or nothing follows the dot. -/
def pySuffix (s : String) : String :=
  let name := (s.data.reverse.takeWhile (· ≠ '/')).reverse
  let afterDot := name.reverse.takeWhile (· ≠ '.')
  if afterDot.length = name.length then ""
  else if 0 < name.length - 1 - afterDot.length ∧ 0 < afterDot.length then
    String.mk ('.' :: afterDot.reverse)
  else ""

/-- `image_exts = {'.jpg', '.jpeg', '.png', '.bmp', '.gif'}`. -/
def imageExts : List String := [".jpg", ".jpeg", ".png", ".bmp", ".gif"]

/-- One song folder as `get_osu_background` observes it: the names returned by
`folder.iterdir()`, the text lines of each file, and existence of a path
relative to the folder (`(folder / candidate).exists()`). -/
structure SongFolder where
  entries : List String
  fileLines : String → List String
  ex : String → Bool

/-- `candidate = parts[2].strip().strip('"')` for a stripped event line:
the third comma-separated field, whitespace-trimmed, quotes removed. -/
def lineCandidate (st : String) : String :=
  stripQuotes (pyStrip (((pySplitComma st).map pyStrip).getD 2 ""))

/-- The acceptance test on a candidate: nonempty, exists on disk relative to
the folder, and carries an accepted image extension (case-insensitive). -/
def candOk (ex : String → Bool) (cand : String) : Prop :=
  cand ≠ "" ∧ ex cand = true ∧ pyLower (pySuffix cand) ∈ imageExts

instance (ex : String → Bool) (cand : String) : Decidable (candOk ex cand) := by
  unfold candOk
  infer_instance

/-- The line scan of the `[Events]` section: `inEv` is the `in_events` flag.
Returns the accepted background candidate (relative to the folder). -/
def scanEvents (ex : String → Bool) (inEv : Bool) : List String → Option String
  | [] => none
  | line :: rest =>
    let st := pyStrip line
    if st = "" then scanEvents ex inEv rest
    else if pyStartsWith st "[Events]" then scanEvents ex true rest
    else if inEv then
      if pyStartsWith st "[" then none
      else if pyStartsWith st "Video," then scanEvents ex true rest
      else if 2 < ((pySplitComma st).map pyStrip).length then
        if candOk ex (lineCandidate st) then some (lineCandidate st)
        else scanEvents ex true rest
      else scanEvents ex true rest
    else scanEvents ex inEv rest

/-- String comparison used to model `sorted(...)` over folder entries. -/
def strLe (a b : String) : Bool :=
  match compare a b with
  | .gt => false
  | _ => true

/-- Insertion into a sorted list of strings. -/
def insertStr (a : String) : List String → List String
  | [] => [a]
  | b :: bs => if strLe a b then a :: b :: bs else b :: insertStr a bs

/-- `sorted(folder.iterdir())`. -/
def sortStr (l : List String) : List String :=
  l.foldr insertStr []

/-- `get_osu_background` (osu_mp3_browser/metadata.py:77-127): pick the first
`.osu` file among the sorted folder entries and scan its `[Events]` section. -/
def get_osu_background (fd : SongFolder) : Option String :=
  match (sortStr fd.entries).find? (fun p => pyLower (pySuffix p) == ".osu") with
  | none => none
  | some osu => scanEvents fd.ex false (fd.fileLines osu)

/-! ## Playlist store (osu_mp3_browser/playlist.py) -/

/-- A playlist: name and ordered `(path, display_title)` songs. -/
structure Playlist where
  name : String
  songs : List (String × String)
deriving DecidableEq, Repr

/-- `Playlist.add_song`: append unless the identical pair is present. -/
def Playlist.add_song (pl : Playlist) (path title : String) : Playlist :=
  if (path, title) ∈ pl.songs then pl
  else { pl with songs := pl.songs ++ [(path, title)] }

/-- `Playlist.remove_song`: pop at `index` only when `0 <= index < len`. -/
def Playlist.remove_song (pl : Playlist) (i : ℤ) : Playlist :=
  if 0 ≤ i ∧ i < (pl.songs.length : ℤ) then { pl with songs := pl.songs.eraseIdx i.toNat }
  else pl

/-- `Playlist.get_song`: the entry at `index`, `None` when out of range. -/
def Playlist.get_song (pl : Playlist) (i : ℤ) : Option (String × String) :=
  if 0 ≤ i ∧ i < (pl.songs.length : ℤ) then pl.songs.get? i.toNat
  else none

/-- The serialized playlist record (`name` plus `songs` of path/title). -/
structure PlaylistData where
  name : String
  songs : List (String × String)
deriving DecidableEq, Repr

/-- `Playlist.from_dict`: keep only songs whose path still exists on disk. -/
def Playlist.from_dict (pathExists : String → Bool) (d : PlaylistData) : Playlist :=
  ⟨d.name, d.songs.filter (fun s => pathExists s.1)⟩

/-- The playlist manager's in-memory state. `currentPlaylist` is modelled by
value; `currentIndex` is the Python int cursor. -/
structure PlaylistManager where
  playlists : List Playlist
  currentPlaylist : Option Playlist
  currentIndex : ℤ
deriving DecidableEq, Repr

/-- `PlaylistManager.create_playlist` (playlist.py:116-128): unconditionally
append a fresh playlist and make it current — no name-uniqueness check. -/
def PlaylistManager.create_playlist (m : PlaylistManager) (name : String) :
    PlaylistManager × Playlist :=
  let pl : Playlist := ⟨name, []⟩
  ({ m with playlists := m.playlists ++ [pl], currentPlaylist := some pl }, pl)

/-- First playlist with the given name. -/
def findByName (n : String) : List Playlist → Option Playlist
  | [] => none
  | pl :: rest => if pl.name = n then some pl else findByName n rest

/-- `PlaylistManager.get_playlist_by_name`. -/
def PlaylistManager.get_playlist_by_name (m : PlaylistManager) (n : String) : Option Playlist :=
  findByName n m.playlists

/-- `existing.songs = playlist.songs`: replace the song list of the first
playlist with the given name (the object `get_playlist_by_name` returned). -/
def setSongsOfFirst (n : String) (ss : List (String × String)) : List Playlist → List Playlist
  | [] => []
  | pl :: rest =>
    if pl.name = n then { pl with songs := ss } :: rest
    else pl :: setSongsOfFirst n ss rest

/-- What the disk provides to `load_playlist`: existence of `{name}.json`,
the parsed record (`none` = `json.load` raised), and song-path existence. -/
structure PlaylistDisk where
  hasFile : String → Bool
  parse : String → Option PlaylistData
  pathExists : String → Bool

/-- `PlaylistManager.load_playlist` (playlist.py:162-190).  Note the merge
guard is `if existing:`, which through `Playlist.__len__` is Python-falsy for
an existing *empty* playlist — in that case a duplicate entry is appended. -/
def PlaylistManager.load_playlist (disk : PlaylistDisk) (m : PlaylistManager) (name : String) :
    PlaylistManager × Option Playlist :=
  if disk.hasFile name = false then (m, none)
  else
    match disk.parse name with
    | none => (m, none)
    | some data =>
      let pl := Playlist.from_dict disk.pathExists data
      match m.get_playlist_by_name pl.name with
      | some ex =>
        if ex.songs.length ≠ 0 then
          ({ m with playlists := setSongsOfFirst pl.name pl.songs m.playlists },
           some { ex with songs := pl.songs })
        else ({ m with playlists := m.playlists ++ [pl] }, some pl)
      | none => ({ m with playlists := m.playlists ++ [pl] }, some pl)

/-- `PlaylistManager.current_song` (playlist.py:255-263): `None` without a
current playlist or with an empty one, else `get_song` at the cursor. -/
def PlaylistManager.current_song (m : PlaylistManager) : Option (String × String) :=
  match m.currentPlaylist with
  | none => none
  | some pl => if pl.songs.length = 0 then none else pl.get_song m.currentIndex

/-- Count of playlists carrying a given name (a measuring helper for stating
the uniqueness claim; not part of the source). -/
def countName (n : String) : List Playlist → ℕ
  | [] => 0
  | pl :: rest => (if pl.name = n then 1 else 0) + countName n rest

/-! ## Playback position engine (osu_mp3_browser.py) -/

/-- The playback-relevant fields of `OsuMP3Browser`: `_playing_path`,
`paused`, `_start_time`, `_pause_time`, `_paused_offset`, `_metadata`. -/
structure Player where
  playingPath : Option String
  paused : Bool
  startTime : Option ℚ
  pauseTime : Option ℚ
  pausedOffset : ℚ
  metadata : MDict
deriving DecidableEq

/-- The pygame backend as the engine observes it at one control operation:
which capabilities succeed, the activity/position reports, and the duration
probes `ensure_duration` would see. -/
structure Backend where
  mixerInit : Bool
  busy : Bool
  setPosOk : Bool
  playStartOk : Bool
  unpauseOk : Bool
  getPos : Option ℤ
  probe : DurProbe

/-- Which of the three fallback seek methods of `seek_to` ends up running. -/
inductive SeekMethod where
  | setPosPlay
  | playStart
  | restart
deriving DecidableEq, Repr

/-- `self._metadata.get(str(path), {}).get('duration') or self.ensure_duration(path)`
(the duration lookup shared by `seek_to`, `update_progress`, `on_progress_click`). -/
def lookupTotal (pr : DurProbe) (md : MDict) (path : String) : MDict × ℤ :=
  let cached := (mdGet md path).duration.getD 0
  if cached ≠ 0 then (md, cached) else ensure_duration pr md path

/-- The `pos_sec` computation of `update_progress` (osu_mp3_browser.py:479-501):
the manual clock when `_start_time` is known (frozen at `pause_time` while
paused), else the backend `get_pos()` fallback. -/
def elapsedDisplay (b : Backend) (now : ℚ) (s : Player) : ℤ :=
  match s.startTime with
  | some st =>
    if s.paused then
      match s.pauseTime with
      | some pt => pyInt (pt - st)
      | none => 0
    else pyInt (now - st)
  | none =>
    match b.getPos with
    | some ms => if ms < 0 then 0 else ms / 1000
    | none => 0

/-- What one `update_progress` tick writes to the widgets: the progress-bar
value, the numeric position and total shown in the time label (`none` =
untouched), and whether a next poll was scheduled. -/
structure ProgressView where
  progressVal : Option ℤ
  shownPos : Option ℤ
  shownTotal : Option ℤ
  scheduled : Bool
deriving DecidableEq, Repr

/-- `OsuMP3Browser.update_progress` (osu_mp3_browser.py:453-515): one poll
tick.  An inactive backend while not paused is natural completion — force the
display to the full duration, clear `_playing_path` and stop polling. -/
def update_progress (b : Backend) (now : ℚ) (s : Player) : Player × ProgressView :=
  match s.playingPath with
  | none => (s, ⟨none, none, none, false⟩)
  | some path =>
    if ¬ b.mixerInit then (s, ⟨none, none, none, false⟩)
    else
      let mt := lookupTotal b.probe s.metadata path
      let s1 := { s with metadata := mt.1 }
      if ¬ b.busy ∧ ¬ s.paused then
        if mt.2 ≠ 0 then
          ({ s1 with playingPath := none }, ⟨some 1000, some mt.2, some mt.2, false⟩)
        else ({ s1 with playingPath := none }, ⟨none, none, none, false⟩)
      else
        let posSec := elapsedDisplay b now s1
        if mt.2 ≠ 0 then
          let frac : ℚ := min 1 ((posSec : ℚ) / (mt.2 : ℚ))
          (s1, ⟨some (pyInt (frac * 1000)), some posSec, some mt.2, true⟩)
        else (s1, ⟨some 0, some posSec, none, true⟩)

/-- `OsuMP3Browser.seek_to` (osu_mp3_browser.py:562-622): clamp the target
*above* to the known duration, try the three backend methods in order,
regardless of the attempt outcomes reset the manual clock to `now - pos`
and clear the pause timestamp and the paused flag, then run one synchronous
`update_progress()` tick (line 620) — so a backend that reports inactive
after the attempts is treated as natural completion right here (the track is
cleared and the display forced to the full duration).  Returns the state
after that tick, the method that ran, and what the tick displayed. -/
def seek_to (b : Backend) (now : ℚ) (s : Player) (pos : ℚ) :
    Player × Option SeekMethod × ProgressView :=
  match s.playingPath with
  | none => (s, none, ⟨none, none, none, false⟩)
  | some path =>
    let mt := lookupTotal b.probe s.metadata path
    let pos2 : ℚ := if mt.2 ≠ 0 ∧ (mt.2 : ℚ) < pos then (mt.2 : ℚ) else pos
    let method : SeekMethod :=
      if b.setPosOk then .setPosPlay else if b.playStartOk then .playStart else .restart
    let s1 : Player := { s with metadata := mt.1, startTime := some (now - pos2),
                                pauseTime := none, pausedOffset := 0, paused := false }
    let up := update_progress b now s1
    (up.1, some method, up.2)

/-- `OsuMP3Browser.toggle_pause` (osu_mp3_browser.py:290-353).  Pausing
records `pause_time`; resuming falls back to `seek_to` at the truncated
frozen position when backend unpause fails, and otherwise advances
`start_time` by the pause duration (guarded by Python truthiness of the two
timestamps). -/
def toggle_pause (b : Backend) (now : ℚ) (s : Player) : Player :=
  if ¬ b.mixerInit then s
  else
    match s.playingPath with
    | none => s
    | some _ =>
      if ¬ s.paused then
        { s with paused := true, pauseTime := some now }
      else
        let s1 : Player :=
          if b.unpauseOk then s
          else
            let posSec : ℤ :=
              match s.startTime, s.pauseTime with
              | some st, some pt => pyInt (pt - st)
              | _, _ => 0
            (seek_to b now s (posSec : ℚ)).1
        let s2 := { s1 with paused := false }
        let s3 : Player :=
          match s2.pauseTime, s2.startTime with
          | some pt, some st =>
            if pt ≠ 0 ∧ st ≠ 0 then { s2 with startTime := some (st + (now - pt)) } else s2
          | _, _ => s2
        { s3 with pauseTime := none }

/-- The clamp the specification describes for `seek`: restrict the target to
the interval `[0, D]`.  Modelled from the spec's words, for comparison with
what `seek_to` actually computes. -/
def clampSpec (t D : ℚ) : ℚ := max 0 (min t D)

/-! ## Helper lemmas -/

theorem pySpace_not_digit {c : Char} (h : pyIsSpace c = true) : c.isDigit = false := by
  simp only [pyIsSpace, Bool.or_eq_true, beq_iff_eq] at h
  rcases h with ((((h | h) | h) | h) | h) | h <;> subst h <;> decide

theorem digit_not_pySpace {c : Char} (h : c.isDigit = true) : pyIsSpace c = false := by
  cases hs : pyIsSpace c with
  | false => rfl
  | true => rw [pySpace_not_digit hs] at h; exact absurd h (by decide)

theorem sep_not_digit {c : Char} (h : isSepChar c = true) : c.isDigit = false := by
  simp only [isSepChar, Bool.or_eq_true, beq_iff_eq] at h
  rcases h with ((h | h) | h) | h
  · exact pySpace_not_digit h
  all_goals subst h; decide

theorem dropWhile_append_all {p : Char → Bool} {w l : List Char}
    (h : ∀ c ∈ w, p c = true) : (w ++ l).dropWhile p = l.dropWhile p := by
  induction w with
  | nil => rfl
  | cons c t ih =>
    simp only [List.cons_append, List.dropWhile_cons, h c (by simp)]
    exact ih (fun c hc => h c (by simp [hc]))

theorem dropWhile_head_not {p : Char → Bool} {l : List Char}
    (h : ∀ c, l.head? = some c → p c = false) : l.dropWhile p = l := by
  cases l with
  | nil => rfl
  | cons c t => simp [List.dropWhile_cons, h c rfl]

theorem mk_ne_empty {c : Char} {l : List Char} : String.mk (c :: l) ≠ "" := by
  intro h
  have := congrArg String.data h
  simp at this

theorem strip_no_match {t : String} (h : leadingNumMatch t = false) :
    strip_leading_numbers t = t := by
  by_cases ht : t = ""
  · simp [strip_leading_numbers, ht]
  · unfold leadingNumMatch at h
    unfold strip_leading_numbers
    rw [if_neg ht]
    cases hd : t.data.dropWhile pyIsSpace with
    | nil => simp [hd]
    | cons c cs =>
      rw [hd] at h
      have h' : c.isDigit = false := h
      simp [hd, h']

/-! ## C9 -/

/-- C9: `strip_leading_numbers` removes the longest leading run of whitespace,
then digits, then separator characters (space, dot, underscore, hyphen,
whitespace).  The idempotence half of the claim fails (see the
counterexample); idempotence holds exactly when the result does not itself
start with optional whitespace followed by a digit. -/
theorem strip_leading_numbers_spec :
    (∀ (w d sp rest : List Char),
        (∀ c ∈ w, pyIsSpace c = true) →
        d ≠ [] →
        (∀ c ∈ d, c.isDigit = true) →
        (∀ c ∈ sp, isSepChar c = true) →
        (∀ c, rest.head? = some c → isSepChar c = false) →
        (sp = [] → ∀ c, rest.head? = some c → c.isDigit = false) →
        strip_leading_numbers (String.mk (w ++ d ++ sp ++ rest)) = String.mk rest) ∧
    (∀ s : String, leadingNumMatch (strip_leading_numbers s) = false →
        strip_leading_numbers (strip_leading_numbers s) = strip_leading_numbers s) := by
  constructor
  · intro w d sp rest hw hd hdig hsp hrest hspnil
    obtain ⟨c, d', rfl⟩ : ∃ c d', d = c :: d' := by
      cases d with
      | nil => exact absurd rfl hd
      | cons c d' => exact ⟨c, d', rfl⟩
    have hc : c.isDigit = true := hdig c (by simp)
    have hne : String.mk (w ++ (c :: d') ++ sp ++ rest) ≠ "" := by
      intro h
      have := congrArg String.data h
      simp at this
    unfold strip_leading_numbers
    rw [if_neg hne]
    have hdata : (String.mk (w ++ (c :: d') ++ sp ++ rest)).data
        = w ++ (c :: (d' ++ (sp ++ rest))) := by simp
    rw [hdata, dropWhile_append_all hw, List.dropWhile_cons, digit_not_pySpace hc]
    simp only [Bool.false_eq_true, if_false, hc, if_true]
    have h2 : ((c :: (d' ++ (sp ++ rest))).dropWhile Char.isDigit)
        = (sp ++ rest).dropWhile Char.isDigit := by
      rw [List.dropWhile_cons, hc, if_pos rfl]
      exact dropWhile_append_all (fun x hx => hdig x (by simp [hx]))
    rw [h2]
    cases sp with
    | nil =>
      rw [List.nil_append, dropWhile_head_not (hspnil rfl),
        dropWhile_head_not hrest]
    | cons e sp' =>
      have he : isSepChar e = true := hsp e (by simp)
      rw [List.cons_append, List.dropWhile_cons, sep_not_digit he]
      simp only [Bool.false_eq_true, if_false]
      rw [← List.cons_append, dropWhile_append_all hsp, dropWhile_head_not hrest]
  · intro s h
    exact strip_no_match h

/-- C9 counterexample: `strip_leading_numbers` is not idempotent — stripping
`"12.34"` yields `"34"`, and stripping again yields `""`. -/
theorem strip_leading_numbers_not_idempotent_cex :
    strip_leading_numbers (strip_leading_numbers "12.34") ≠ strip_leading_numbers "12.34" := by
  decide

/-! ## C4 -/

theorem truthyS_isSome {o : Option String} (h : truthyS o = true) : o.isSome = true := by
  cases o with
  | none => simp [truthyS] at h
  | some s => rfl

theorem assembleMeta_title (t a al : Option String) (d : Option ℤ) :
    (assembleMeta t a al d).title = if truthyS t then t else none := by
  unfold assembleMeta
  cases d with
  | none =>
    dsimp only
    split_ifs <;> rfl
  | some x =>
    dsimp only
    split_ifs <;> rfl

/-- C4 (amended): `get_mp3_metadata` is total (never raises: every library
failure degrades the result), and the title field is populated — via the tag
chain or the filename-stem fallback with leading-numeric-run stripping —
whenever mutagen is available, neither of the two unguarded
`MutagenFile(...)` calls raises, and the stripped stem is nonempty.  When one
of those calls raises (or mutagen is missing) the result is the entirely
empty record with no title (see the counterexample), and a stem that strips
to `""` also leaves the title absent. -/
theorem metadata_title_fallback (src : TagSrc) (stem : String)
    (hm : src.hasMutagen = true) (he : src.loadEasy ≠ .exn) (hr : src.loadRaw ≠ .exn)
    (hs : strip_leading_numbers stem ≠ "") :
    (get_mp3_metadata src stem).title.isSome = true := by
  unfold get_mp3_metadata
  rw [hm]
  simp only [not_true, if_false]
  cases heq : src.loadEasy with
  | exn => exact absurd heq he
  | ok eo =>
    dsimp only
    cases hrt : titleWithRaw src.loadRaw (easyFields eo).1 with
    | exn =>
      exfalso
      unfold titleWithRaw at hrt
      by_cases h0 : truthyS (easyFields eo).1 = true
      · rw [if_pos h0] at hrt
        exact PyRes.noConfusion hrt
      · rw [if_neg h0] at hrt
        cases hlr : src.loadRaw with
        | exn => exact hr hlr
        | ok ro =>
          rw [hlr] at hrt
          exact PyRes.noConfusion hrt
    | ok t1 =>
      dsimp only
      rw [assembleMeta_title]
      by_cases h1 : truthyS t1 = true
      · rw [if_pos h1, if_pos h1]
        exact truthyS_isSome h1
      · rw [if_neg h1]
        have hst : truthyS (some (strip_leading_numbers stem)) = true := by
          simp [truthyS, hs]
        rw [if_pos hst]
        rfl

/-- C4 counterexample: when the unguarded easy-interface load raises, the
outer handler returns the empty dict — the title is *not* populated, against
the claim that the returned record always has a title. -/
theorem metadata_title_missing_cex :
    get_mp3_metadata ⟨true, .exn, .ok none⟩ "456 Track" = ({} : Meta) ∧
    (get_mp3_metadata ⟨true, .exn, .ok none⟩ "456 Track").title = none := by
  decide

/-- C4 witness: a file with no readable tags and stem `"456 Track"` resolves
to a record whose title is the stripped stem `"Track"`. -/
theorem metadata_title_fallback_witness :
    (get_mp3_metadata ⟨true, .ok none, .ok none⟩ "456 Track").title.isSome = true ∧
    get_mp3_metadata ⟨true, .ok none, .ok none⟩ "456 Track" = { title := some "Track" } := by
  exact ⟨metadata_title_fallback ⟨true, .ok none, .ok none⟩ "456 Track" rfl
      (by decide) (by decide) (by decide), by decide⟩

/-! ## C5 -/

theorem mdGet_mdSet_self (md : MDict) (k : String) (v : Meta) :
    mdGet (mdSet md k v) k = v := by
  induction md with
  | nil => simp [mdGet, mdSet]
  | cons kv rest ih =>
    obtain ⟨k', v'⟩ := kv
    unfold mdSet
    by_cases h : k' = k
    · simp [h, mdGet]
    · simp only [if_neg h]
      unfold mdGet
      rw [if_neg h]
      exact ih

theorem mdGet_mdSet_ne (md : MDict) {k q : String} (v : Meta) (h : k ≠ q) :
    mdGet (mdSet md k v) q = mdGet md q := by
  induction md with
  | nil => simp [mdGet, mdSet, h]
  | cons kv rest ih =>
    obtain ⟨k', v'⟩ := kv
    unfold mdSet
    by_cases h' : k' = k
    · subst h'
      simp [mdGet, if_neg h]
    · simp only [if_neg h']
      unfold mdGet
      by_cases h'' : k' = q
      · simp [h'']
      · simp only [if_neg h'']
        exact ih

/-- C5 (amended): `ensure_duration` itself is a monotonic populate-once
cache: it returns a present nonzero cached duration unchanged; on a cache
miss it caches and returns the first nonzero probe result (mutagen stream
info first, then the pygame payload probe); it returns 0 and caches nothing
on total failure; and it never clears or changes an already-populated nonzero
duration of any path.  The claim's further assertion that *no operation of
the system* ever clears or recomputes a populated duration fails:
`scan_and_populate` overwrites cache entries wholesale (see the
counterexample). -/
theorem ensure_duration_spec :
    (∀ (pr : DurProbe) (md : MDict) (p : String) (d : ℤ),
        (mdGet md p).duration = some d → d ≠ 0 →
        ensure_duration pr md p = (md, d)) ∧
    (∀ (pr : DurProbe) (md : MDict) (p : String) (l : ℤ),
        (mdGet md p).duration.getD 0 = 0 → pr.mutagenLen = some l → l ≠ 0 →
        ensure_duration pr md p = (mdSet md p { mdGet md p with duration := some l }, l)) ∧
    (∀ (pr : DurProbe) (md : MDict) (p : String) (l : ℤ),
        (mdGet md p).duration.getD 0 = 0 →
        (∀ x, pr.mutagenLen = some x → x = 0) →
        pr.sndLen = some l → l ≠ 0 →
        ensure_duration pr md p = (mdSet md p { mdGet md p with duration := some l }, l)) ∧
    (∀ (pr : DurProbe) (md : MDict) (p : String),
        (mdGet md p).duration.getD 0 = 0 →
        (∀ x, pr.mutagenLen = some x → x = 0) →
        (∀ x, pr.sndLen = some x → x = 0) →
        ensure_duration pr md p = (md, 0)) ∧
    (∀ (pr : DurProbe) (md : MDict) (p q : String) (d : ℤ),
        (mdGet md q).duration = some d → d ≠ 0 →
        (mdGet (ensure_duration pr md p).1 q).duration = some d) := by
  have hcached : ∀ (pr : DurProbe) (md : MDict) (p : String) (d : ℤ),
      (mdGet md p).duration = some d → d ≠ 0 → ensure_duration pr md p = (md, d) := by
    intro pr md p d hd hd0
    simp only [ensure_duration, hd]
    simp [hd0]
  refine ⟨hcached, ?_, ?_, ?_, ?_⟩
  · intro pr md p l h0 hm hl
    simp only [ensure_duration, h0, hm]
    simp [hl]
  · intro pr md p l h0 hm hsnd hl
    simp only [ensure_duration, h0, hsnd]
    simp only [ne_eq, not_true_eq_false, if_false, hl, if_true]
    cases hmv : pr.mutagenLen with
    | none => simp [hl]
    | some x => simp [hm x hmv, hl]
  · intro pr md p h0 hm hs
    simp only [ensure_duration, h0]
    simp only [ne_eq, not_true_eq_false, if_false]
    cases hmv : pr.mutagenLen with
    | none =>
      cases hsv : pr.sndLen with
      | none => rfl
      | some x => simp [hs x hsv]
    | some x =>
      simp only [hm x hmv, ne_eq, not_true_eq_false, if_false]
      cases hsv : pr.sndLen with
      | none => rfl
      | some y => simp [hs y hsv]
  · intro pr md p q d hd hd0
    by_cases hc : (mdGet md p).duration.getD 0 ≠ 0
    · have : ensure_duration pr md p = (md, (mdGet md p).duration.getD 0) := by
        unfold ensure_duration
        simp [hc]
      rw [this, hd]
    · push_neg at hc
      have hpq : p ≠ q := by
        intro h
        subst h
        rw [hd] at hc
        exact hd0 hc
      simp only [ensure_duration, hc, ne_eq, not_true_eq_false, if_false]
      cases hmv : pr.mutagenLen with
      | none =>
        cases hsv : pr.sndLen with
        | none => simpa using hd
        | some y =>
          by_cases hy : y = 0
          · simpa [hy] using hd
          · simp only [hy, ne_eq, not_false_eq_true, if_true]
            rw [mdGet_mdSet_ne md _ hpq, hd]
      | some x =>
        by_cases hx : x = 0
        · simp only [hx, ne_eq, not_true_eq_false, if_false]
          cases hsv : pr.sndLen with
          | none => simpa using hd
          | some y =>
            by_cases hy : y = 0
            · simpa [hy] using hd
            · simp only [hy, ne_eq, not_false_eq_true, if_true]
              rw [mdGet_mdSet_ne md _ hpq, hd]
        · simp only [hx, ne_eq, not_false_eq_true, if_true]
          rw [mdGet_mdSet_ne md _ hpq, hd]

/-- C5 counterexample: a rescan (`scan_and_populate`) replaces the whole
cached record for a path; a duration populated earlier (here 300) is cleared
when the fresh tag read degrades to the empty record. -/
theorem duration_cache_rescan_cex :
    (mdGet (mdSet [] "song.mp3" { duration := some 300 }) "song.mp3").duration = some 300 ∧
    (mdGet (scan_store ⟨true, .exn, .ok none⟩
        (mdSet [] "song.mp3" { duration := some 300 }) "song.mp3" "song") "song.mp3").duration
      = none := by
  decide

/-- C5 witness: the cached-value clause at a concrete populated cache. -/
theorem ensure_duration_spec_witness :
    ensure_duration ⟨none, none⟩ [("p", { duration := some 300 })] "p"
      = ([("p", { duration := some 300 })], 300) := by
  exact ensure_duration_spec.1 ⟨none, none⟩ [("p", { duration := some 300 })] "p" 300
    (by decide) (by decide)

/-! ## C1, C2, C3 -/

theorem pyInt_nonneg {q : ℚ} (h : 0 ≤ q) : pyInt q = ⌊q⌋ := by
  unfold pyInt
  rw [if_neg (not_lt.mpr h)]

theorem pyInt_add_nat {q : ℚ} (h : 0 ≤ q) (n : ℕ) : pyInt (q + n) = pyInt q + n := by
  rw [pyInt_nonneg h, pyInt_nonneg (add_nonneg h (by positivity))]
  exact_mod_cast Int.floor_add_nat q n

theorem pyInt_intCast (m : ℤ) : pyInt (m : ℚ) = m := by
  unfold pyInt
  split_ifs <;> simp

theorem pyInt_intCast_add_nat (k : ℤ) (n : ℕ) : pyInt ((k : ℚ) + n) = k + n := by
  have h : ((k : ℚ) + n) = ((k + n : ℤ) : ℚ) := by push_cast; ring
  rw [h, pyInt_intCast]

theorem lookupTotal_cached {md : MDict} {p : String} {D : ℤ}
    (hD : (mdGet md p).duration = some D) (hD0 : D ≠ 0) (pr : DurProbe) :
    lookupTotal pr md p = (md, D) := by
  unfold lookupTotal
  rw [hD]
  simp [hD0]

theorem update_progress_preserves_timing (b : Backend) (now : ℚ) (s : Player) :
    (update_progress b now s).1.paused = s.paused ∧
    (update_progress b now s).1.startTime = s.startTime ∧
    (update_progress b now s).1.pauseTime = s.pauseTime := by
  unfold update_progress
  cases hpp : s.playingPath with
  | none => exact ⟨rfl, rfl, rfl⟩
  | some path =>
    dsimp only
    split_ifs <;> exact ⟨rfl, rfl, rfl⟩

theorem update_progress_busy_id (b : Backend) (now : ℚ) (s : Player) (p : String) (D : ℤ)
    (hp : s.playingPath = some p) (hinit : b.mixerInit = true) (hB : b.busy = true)
    (hD : (mdGet s.metadata p).duration = some D) (hD0 : D ≠ 0) :
    (update_progress b now s).1 = s := by
  unfold update_progress
  rw [hp]
  dsimp only
  rw [if_neg (by simp [hinit])]
  rw [lookupTotal_cached hD hD0 b.probe]
  dsimp only
  rw [if_neg (fun h => h.1 hB)]
  rw [if_pos hD0, ← hp]

theorem update_progress_complete_state (b : Backend) (now : ℚ) (s : Player) (p : String)
    (D : ℤ)
    (hp : s.playingPath = some p) (hinit : b.mixerInit = true) (hB : b.busy = false)
    (hpau : s.paused = false)
    (hD : (mdGet s.metadata p).duration = some D) (hD0 : D ≠ 0) :
    update_progress b now s
      = ({ s with metadata := s.metadata, playingPath := none },
         ⟨some 1000, some D, some D, false⟩) := by
  unfold update_progress
  rw [hp]
  dsimp only
  rw [if_neg (by simp [hinit])]
  rw [lookupTotal_cached hD hD0 b.probe]
  dsimp only
  rw [if_pos ⟨by simp [hB], by simp [hpau]⟩, if_pos hD0]

/-- On an inactive backend, the `update_progress()` tick that ends `seek_to`
treats the silence as natural completion: the track is cleared and the
display is forced to the full known duration. -/
theorem seek_to_inactive_clears (b : Backend) (now pos : ℚ) (s : Player) (p : String) (D : ℤ)
    (hp : s.playingPath = some p) (hinit : b.mixerInit = true) (hB : b.busy = false)
    (hD : (mdGet s.metadata p).duration = some D) (hD0 : D ≠ 0) :
    (seek_to b now s pos).1.playingPath = none ∧
    (seek_to b now s pos).2.2 = ⟨some 1000, some D, some D, false⟩ := by
  unfold seek_to
  rw [hp]
  dsimp only
  rw [lookupTotal_cached hD hD0 b.probe]
  dsimp only
  generalize (if D ≠ 0 ∧ (D : ℚ) < pos then (D : ℚ) else pos) = q
  rw [update_progress_complete_state b now
    (⟨some p, false, some (now - q), none, 0, s.metadata⟩ : Player) p D rfl hinit hB rfl hD hD0]
  exact ⟨rfl, rfl⟩

/-- C1 (amended): for a playing track with known (cached, positive) duration
`D`, an initialized mixer and a nonnegative target `t`, `seek_to` clamps the
target *above* to `D` (there is no lower clamp: see the counterexample for
`t < 0`), and — regardless of which of the three backend seek methods
succeeds or fails — sets `startTimeBase = now - min t D` (on `t ≥ 0` this
coincides with the spec's clamp to `[0, D]`), clears the pause timestamp and
the paused flag, and makes the manual elapsed clock read the clamped target
immediately.  The track is kept (state `Playing`) only when the backend
reports active afterwards; when it reports inactive — e.g. every seek
attempt failed to restart playback — the trailing `update_progress()` tick
(osu_mp3_browser.py:620) treats it as natural completion: the track is
cleared (state `Idle`) and the display is forced to the full duration. -/
theorem seek_to_spec (b : Backend) (now t : ℚ) (s : Player) (p : String) (D : ℤ)
    (hp : s.playingPath = some p)
    (hD : (mdGet s.metadata p).duration = some D) (hD1 : 0 < D)
    (ht : 0 ≤ t) (hinit : b.mixerInit = true) :
    (seek_to b now s t).1.startTime = some (now - min t (D : ℚ)) ∧
    (seek_to b now s t).1.pauseTime = none ∧
    (seek_to b now s t).1.paused = false ∧
    (seek_to b now s t).1.metadata = s.metadata ∧
    elapsedDisplay b now (seek_to b now s t).1 = pyInt (min t (D : ℚ)) ∧
    min t (D : ℚ) = clampSpec t (D : ℚ) ∧
    (b.busy = true → (seek_to b now s t).1.playingPath = some p) ∧
    (b.busy = false → (seek_to b now s t).1.playingPath = none ∧
      (seek_to b now s t).2.2 = ⟨some 1000, some D, some D, false⟩) ∧
    (∀ b' : Backend, b'.busy = b.busy → b'.mixerInit = b.mixerInit →
      (seek_to b' now s t).1 = (seek_to b now s t).1) := by
  have hD0 : D ≠ 0 := ne_of_gt hD1
  have hclampeq : min t (D : ℚ) = clampSpec t (D : ℚ) := by
    unfold clampSpec
    exact (max_eq_right (le_min ht (by exact_mod_cast le_of_lt hD1))).symm
  have hpos : (if D ≠ 0 ∧ (D : ℚ) < t then (D : ℚ) else t) = min t (D : ℚ) := by
    split_ifs with h
    · exact (min_eq_right (le_of_lt h.2)).symm
    · have hnlt : ¬ ((D : ℚ) < t) := fun hlt => h ⟨hD0, hlt⟩
      exact (min_eq_left (not_lt.mp hnlt)).symm
  have hmid : ∀ b'' : Backend, (seek_to b'' now s t).1
      = (update_progress b'' now
          (⟨some p, false, some (now - min t (D : ℚ)), none, 0, s.metadata⟩ : Player)).1 := by
    intro b''
    unfold seek_to
    rw [hp]
    dsimp only
    rw [lookupTotal_cached hD hD0 b''.probe]
    dsimp only
    rw [hpos]
  have hview : (seek_to b now s t).2.2
      = (update_progress b now
          (⟨some p, false, some (now - min t (D : ℚ)), none, 0, s.metadata⟩ : Player)).2 := by
    unfold seek_to
    rw [hp]
    dsimp only
    rw [lookupTotal_cached hD hD0 b.probe]
    dsimp only
    rw [hpos]
  obtain ⟨hTpa, hTst, hTpt⟩ := update_progress_preserves_timing b now
      (⟨some p, false, some (now - min t (D : ℚ)), none, 0, s.metadata⟩ : Player)
  refine ⟨?_, ?_, ?_, ?_, ?_, hclampeq, ?_, ?_, ?_⟩
  · rw [hmid b]
    exact hTst
  · rw [hmid b]
    exact hTpt
  · rw [hmid b]
    exact hTpa
  · cases hB : b.busy with
    | true =>
      rw [hmid b, update_progress_busy_id b now
        (⟨some p, false, some (now - min t (D : ℚ)), none, 0, s.metadata⟩ : Player) p D rfl hinit hB hD hD0]
    | false =>
      rw [hmid b, update_progress_complete_state b now
        (⟨some p, false, some (now - min t (D : ℚ)), none, 0, s.metadata⟩ : Player) p D rfl hinit hB rfl hD hD0]
  · rw [hmid b]
    unfold elapsedDisplay
    rw [hTst, hTpa]
    dsimp only
    simp only [Bool.false_eq_true, if_false]
    rw [sub_sub_cancel]
  · intro hB
    rw [hmid b, update_progress_busy_id b now
      (⟨some p, false, some (now - min t (D : ℚ)), none, 0, s.metadata⟩ : Player) p D rfl hinit hB hD hD0]
  · intro hB
    constructor
    · rw [hmid b, update_progress_complete_state b now
        (⟨some p, false, some (now - min t (D : ℚ)), none, 0, s.metadata⟩ : Player) p D rfl hinit hB rfl hD hD0]
    · rw [hview, update_progress_complete_state b now
        (⟨some p, false, some (now - min t (D : ℚ)), none, 0, s.metadata⟩ : Player) p D rfl hinit hB rfl hD hD0]
  · intro b' hb hm
    have hm' : b'.mixerInit = true := hm.trans hinit
    cases hB : b.busy with
    | true =>
      rw [hmid b', hmid b,
        update_progress_busy_id b' now
          (⟨some p, false, some (now - min t (D : ℚ)), none, 0, s.metadata⟩ : Player) p D rfl hm' (hb.trans hB) hD hD0,
        update_progress_busy_id b now
          (⟨some p, false, some (now - min t (D : ℚ)), none, 0, s.metadata⟩ : Player) p D rfl hinit hB hD hD0]
    | false =>
      rw [hmid b', hmid b,
        update_progress_complete_state b' now
          (⟨some p, false, some (now - min t (D : ℚ)), none, 0, s.metadata⟩ : Player) p D rfl hm' (hb.trans hB) rfl hD hD0,
        update_progress_complete_state b now
          (⟨some p, false, some (now - min t (D : ℚ)), none, 0, s.metadata⟩ : Player) p D rfl hinit hB rfl hD hD0]

/-- A backend on which every capability works. -/
def bAll : Backend := ⟨true, true, true, true, true, none, ⟨none, none⟩⟩

/-- A backend on which every seek capability fails and that reports
inactive (as after a failed restart). -/
def bDead : Backend := ⟨true, false, false, false, false, none, ⟨none, none⟩⟩

/-- A playing state: track `a.mp3` with cached duration 100, started at 5. -/
def sNeg : Player := ⟨some "a.mp3", false, some 5, none, 0, [("a.mp3", { duration := some 100 })]⟩

/-- C1 counterexample: the claimed clamp to `[0, D]` does not happen below 0 —
seeking to `-1` sets `startTimeBase = now + 1` (the spec's clamp would give
`now - 0`) and the elapsed clock reads `-1`, not `0`; and the state after
`seek` is not `Playing` for every backend — on a backend that reports
inactive after the attempts the track is cleared. -/
theorem seek_to_negative_target_cex :
    (seek_to bAll 10 sNeg (-1)).1.startTime = some 11 ∧
    clampSpec (-1) 100 = 0 ∧
    ((11 : ℚ)) ≠ 10 - clampSpec (-1) 100 ∧
    elapsedDisplay bAll 10 (seek_to bAll 10 sNeg (-1)).1 = -1 ∧
    (seek_to bDead 10 sNeg 30).1.playingPath = none := by
  have hseek : (seek_to bAll 10 sNeg (-1)).1
      = (⟨some "a.mp3", false, some 11, none, 0, sNeg.metadata⟩ : Player) := by
    have hmid : (seek_to bAll 10 sNeg (-1)).1
        = (update_progress bAll 10
            (⟨some "a.mp3", false, some 11, none, 0, sNeg.metadata⟩ : Player)).1 := by
      unfold seek_to
      rw [show sNeg.playingPath = some "a.mp3" from rfl]
      dsimp only
      rw [lookupTotal_cached (show (mdGet sNeg.metadata "a.mp3").duration = some 100 by decide)
        (by decide) bAll.probe]
      dsimp only
      rw [if_neg (by norm_num), show (10 : ℚ) - -1 = 11 by norm_num]
    rw [hmid, update_progress_busy_id bAll 10
      (⟨some "a.mp3", false, some 11, none, 0, sNeg.metadata⟩ : Player) "a.mp3" 100
      rfl rfl rfl (by decide) (by decide)]
  have hclamp : clampSpec (-1) 100 = 0 := by
    unfold clampSpec
    norm_num
  have hdead := seek_to_inactive_clears bDead 10 30 sNeg "a.mp3" 100 rfl rfl rfl
    (by decide) (by decide)
  refine ⟨by rw [hseek], hclamp, by rw [hclamp]; norm_num, ?_, hdead.1⟩
  rw [hseek]
  unfold elapsedDisplay
  dsimp only
  simp only [Bool.false_eq_true, if_false]
  rw [show (10 : ℚ) - 11 = -1 by norm_num]
  decide

/-- C1 witness: seeking to 30 with duration 100 at `now = 10` on an active
backend — manual clock at the target, track kept. -/
theorem seek_to_spec_witness :
    (seek_to bAll 10 sNeg 30).1.startTime = some (10 - min 30 ((100 : ℤ) : ℚ)) ∧
    elapsedDisplay bAll 10 (seek_to bAll 10 sNeg 30).1 = pyInt (min 30 ((100 : ℤ) : ℚ)) ∧
    (seek_to bAll 10 sNeg 30).1.playingPath = some "a.mp3" := by
  have h := seek_to_spec bAll 10 30 sNeg "a.mp3" 100 rfl (by decide) (by decide)
    (by norm_num) rfl
  exact ⟨h.1, h.2.2.2.2.1, h.2.2.2.2.2.2.1 rfl⟩

/-- C2 (amended): for a playing track with positive, monotone wall-clock
times and known (cached, nonzero) duration `D`: after `pause()` the elapsed
display stays frozen at `int(pauseTimestamp - startTimeBase)` for any amount
of wall time; after `resume()` — whether or not the backend unpause
succeeded — elapsed time is continuous across the pause: after `n` further
whole seconds of playing, elapsed equals the frozen pre-pause value plus
`n`, *provided* the frozen value does not exceed `D`.  (Without that
proviso the failed-unpause path re-seeks and clamps the position to `D`,
breaking continuity: see the counterexample.  Continuity is also only exact
at the whole-second granularity of the `int()` display clock.) -/
theorem pause_resume_continuity (b : Backend) (s : Player) (p : String) (st tp tr : ℚ)
    (D : ℤ)
    (hp : s.playingPath = some p) (hpause : s.paused = false)
    (hst : s.startTime = some st) (hpt : s.pauseTime = none)
    (hD : (mdGet s.metadata p).duration = some D) (hD0 : D ≠ 0)
    (hinit : b.mixerInit = true)
    (h0 : 0 < st) (h1 : st ≤ tp)
    (hclamp : pyInt (tp - st) ≤ D) :
    (∀ now' : ℚ, elapsedDisplay b now' (toggle_pause b tp s) = pyInt (tp - st)) ∧
    (∀ n : ℕ, elapsedDisplay b (tr + n) (toggle_pause b tr (toggle_pause b tp s))
        = pyInt (tp - st) + n) := by
  obtain ⟨pp, pa, stt, ptt, po, md⟩ := s
  dsimp only at hp hpause hst hpt hD
  subst hp hpause hst hpt
  have htp0 : tp ≠ 0 := ne_of_gt (lt_of_lt_of_le h0 h1)
  have hst0 : st ≠ 0 := ne_of_gt h0
  have hmix : ¬ ¬ (b.mixerInit = true) := by simp [hinit]
  have e1 : toggle_pause b tp ⟨some p, false, some st, none, po, md⟩
      = ⟨some p, true, some st, some tp, po, md⟩ := by
    unfold toggle_pause
    rw [if_neg hmix]
    rfl
  refine ⟨fun now' => by rw [e1]; rfl, fun n => ?_⟩
  rw [e1]
  cases hU : b.unpauseOk with
  | true =>
    have e2 : toggle_pause b tr ⟨some p, true, some st, some tp, po, md⟩
        = ⟨some p, false, some (st + (tr - tp)), none, po, md⟩ := by
      unfold toggle_pause
      rw [if_neg hmix, hU]
      dsimp only
      simp only [eq_self_iff_true, not_true, if_false, if_true]
      rw [if_pos ⟨htp0, hst0⟩]
    rw [e2]
    show pyInt ((tr + n) - (st + (tr - tp))) = pyInt (tp - st) + n
    rw [show (tr + (n : ℚ)) - (st + (tr - tp)) = (tp - st) + n by ring]
    exact pyInt_add_nat (sub_nonneg.mpr h1) n
  | false =>
    have hkD : ¬ (D ≠ 0 ∧ (D : ℚ) < ((pyInt (tp - st) : ℤ) : ℚ)) := by
      rintro ⟨-, hlt⟩
      exact absurd hlt (not_lt.mpr (by exact_mod_cast hclamp))
    have hmid : (seek_to b tr (⟨some p, true, some st, some tp, po, md⟩ : Player)
          ((pyInt (tp - st) : ℤ) : ℚ)).1
        = (update_progress b tr
            (⟨some p, false, some (tr - ((pyInt (tp - st) : ℤ) : ℚ)), none, 0, md⟩ : Player)).1 := by
      unfold seek_to
      dsimp only
      rw [lookupTotal_cached hD hD0 b.probe]
      dsimp only
      rw [if_neg hkD]
    obtain ⟨-, hTst, hTpt⟩ := update_progress_preserves_timing b tr
        (⟨some p, false, some (tr - ((pyInt (tp - st) : ℤ) : ℚ)), none, 0, md⟩ : Player)
    unfold toggle_pause
    rw [if_neg hmix, hU]
    dsimp only
    simp only [eq_self_iff_true, not_true, Bool.false_eq_true, if_false, if_true]
    rw [hmid]
    rw [hTpt]
    dsimp only
    unfold elapsedDisplay
    dsimp only
    rw [hTst]
    dsimp only
    simp only [Bool.false_eq_true, if_false]
    rw [show (tr + (n : ℚ)) - (tr - ((pyInt (tp - st) : ℤ) : ℚ))
        = ((pyInt (tp - st) : ℤ) : ℚ) + n by ring]
    exact pyInt_intCast_add_nat _ n

/-- A backend whose unpause capability fails (resume falls back to seeking). -/
def bNoUnpause : Backend := ⟨true, true, true, true, false, none, ⟨none, none⟩⟩

/-- A playing state: track started at wall-clock 1, cached duration 120. -/
def sClk : Player := ⟨some "a.mp3", false, some 1, none, 0, [("a.mp3", { duration := some 120 })]⟩

/-- C2 counterexample: with the manual clock 130 s into a track whose known
duration is 120 s, pausing freezes the display at 130, but resuming against
a backend whose unpause fails re-seeks with the position clamped to 120 —
one second later the display reads 121, not the claimed 130 + 1. -/
theorem resume_clamp_discontinuity_cex :
    elapsedDisplay bNoUnpause 500 (toggle_pause bNoUnpause 131 sClk) = 130 ∧
    elapsedDisplay bNoUnpause 132
      (toggle_pause bNoUnpause 131 (toggle_pause bNoUnpause 131 sClk)) = 121 ∧
    (121 : ℤ) ≠ 130 + 1 := by
  have hps : pyInt ((131 : ℚ) - 1) = 130 := by
    unfold pyInt
    rw [if_neg (by norm_num)]
    rw [show (131 : ℚ) - 1 = 130 by norm_num]
    norm_num
  have e1 : toggle_pause bNoUnpause 131 sClk
      = ⟨some "a.mp3", true, some 1, some 131, 0, sClk.metadata⟩ := by
    unfold toggle_pause
    rw [if_neg (by decide)]
    rfl
  have e2 : toggle_pause bNoUnpause 131
        (⟨some "a.mp3", true, some 1, some 131, 0, sClk.metadata⟩ : Player)
      = ⟨some "a.mp3", false, some (131 - ((120 : ℤ) : ℚ)), none, 0, sClk.metadata⟩ := by
    unfold toggle_pause
    rw [if_neg (by decide), show bNoUnpause.unpauseOk = false from rfl]
    dsimp only
    simp only [eq_self_iff_true, not_true, Bool.false_eq_true, if_false, if_true]
    unfold seek_to
    dsimp only
    rw [lookupTotal_cached
      (show (mdGet sClk.metadata "a.mp3").duration = some 120 by decide) (by decide)
      bNoUnpause.probe]
    dsimp only
    rw [if_pos ⟨by decide, by rw [hps]; norm_num⟩]
    rfl
  refine ⟨by rw [e1]; exact hps, ?_, by decide⟩
  rw [e1, e2]
  show pyInt ((132 : ℚ) - (131 - ((120 : ℤ) : ℚ))) = 121
  rw [show (132 : ℚ) - (131 - ((120 : ℤ) : ℚ)) = 121 by norm_num]
  unfold pyInt
  rw [if_neg (by norm_num)]
  norm_num

/-- C2 witness: pause at 3 (started at 1, duration 120), resume at 7 against
a failing unpause, then 5 further seconds: frozen value 2, then 2 + 5. -/
theorem pause_resume_continuity_witness :
    elapsedDisplay bNoUnpause 100 (toggle_pause bNoUnpause 3 sClk) = pyInt ((3 : ℚ) - 1) ∧
    elapsedDisplay bNoUnpause ((7 : ℚ) + (5 : ℕ))
      (toggle_pause bNoUnpause 7 (toggle_pause bNoUnpause 3 sClk))
      = pyInt ((3 : ℚ) - 1) + (5 : ℕ) := by
  have hps2 : pyInt ((3 : ℚ) - 1) ≤ 120 := by
    unfold pyInt
    rw [if_neg (by norm_num), show (3 : ℚ) - 1 = 2 by norm_num]
    norm_num
  have h := pause_resume_continuity bNoUnpause sClk "a.mp3" 1 3 7 120 rfl rfl rfl rfl
    (by decide) (by decide) rfl (by norm_num) (by norm_num) hps2
  exact ⟨h.1 100, h.2 5⟩

/-- C3: when the backend reports not-busy while the engine is `Playing` (not
paused) and the track's duration `D` is known, the poll step treats it as
natural end-of-track: `_playing_path` is cleared, the displayed position and
total are both forced to `D` (progress bar full at 1000), and no further poll
is scheduled. -/
theorem natural_completion_spec (b : Backend) (now : ℚ) (s : Player) (p : String) (D : ℤ)
    (hp : s.playingPath = some p) (hinit : b.mixerInit = true) (hbusy : b.busy = false)
    (hpaused : s.paused = false)
    (hD : (mdGet s.metadata p).duration = some D) (hD0 : D ≠ 0) :
    (update_progress b now s).1.playingPath = none ∧
    (update_progress b now s).2.shownPos = some D ∧
    (update_progress b now s).2.shownTotal = some D ∧
    (update_progress b now s).2.progressVal = some 1000 ∧
    (update_progress b now s).2.scheduled = false := by
  rw [update_progress_complete_state b now s p D hp hinit hbusy hpaused hD hD0]
  exact ⟨rfl, rfl, rfl, rfl, rfl⟩

/-- C3 witness: inactive backend while `sNeg` is playing — position forced to
the full duration 100, not zero. -/
theorem natural_completion_spec_witness :
    (update_progress ⟨true, false, true, true, true, none, ⟨none, none⟩⟩ 50 sNeg).1.playingPath
      = none ∧
    (update_progress ⟨true, false, true, true, true, none, ⟨none, none⟩⟩ 50 sNeg).2.shownPos
      = some 100 := by
  have h := natural_completion_spec ⟨true, false, true, true, true, none, ⟨none, none⟩⟩ 50 sNeg
      "a.mp3" 100 rfl rfl rfl rfl (by decide) (by decide)
  exact ⟨h.1, h.2.1⟩

/-! ## C6 and C7 -/

theorem startsWith_video_facts {st : String} (h : pyStartsWith st "Video," = true) :
    st ≠ "" ∧ pyStartsWith st "[Events]" = false ∧ pyStartsWith st "[" = false := by
  obtain ⟨cs⟩ := st
  cases cs with
  | nil => exact absurd h (by decide)
  | cons c t =>
    have hc : c = 'V' := by
      unfold pyStartsWith charsPre at h
      have := (Bool.and_eq_true _ _).mp h
      exact (beq_iff_eq.mp this.1).symm
    subst hc
    exact ⟨mk_ne_empty, rfl, rfl⟩

/-- C6: while scanning the (first) `[Events]` section, a line beginning with
the literal `Video,` is skipped, and any other ordinary event line with at
least three comma-separated fields is resolved through its field of index 2
with whitespace and surrounding quotes stripped (`lineCandidate`) — so a
`Video,...` line before a valid background line does not prevent the
background line from being found. -/
theorem events_video_skip :
    (∀ (ex : String → Bool) (line : String) (rest : List String),
        pyStartsWith (pyStrip line) "Video," = true →
        scanEvents ex true (line :: rest) = scanEvents ex true rest) ∧
    (∀ (ex : String → Bool) (line : String) (rest : List String),
        pyStrip line ≠ "" →
        pyStartsWith (pyStrip line) "[Events]" = false →
        pyStartsWith (pyStrip line) "[" = false →
        pyStartsWith (pyStrip line) "Video," = false →
        2 < ((pySplitComma (pyStrip line)).map pyStrip).length →
        scanEvents ex true (line :: rest)
          = if candOk ex (lineCandidate (pyStrip line))
            then some (lineCandidate (pyStrip line))
            else scanEvents ex true rest) := by
  constructor
  · intro ex line rest h
    obtain ⟨hne, hev, hbr⟩ := startsWith_video_facts h
    simp only [scanEvents]
    rw [if_neg hne, if_neg (by simp [hev]), if_pos (by trivial), if_neg (by simp [hbr]),
      if_pos h]
  · intro ex line rest h1 h2 h3 h4 h5
    simp only [scanEvents]
    rw [if_neg h1, if_neg (by simp [h2]), if_pos (by trivial), if_neg (by simp [h3]),
      if_neg (by simp [h4]), if_pos h5]

/-- The folder used by the C6/C7 witnesses: sorted entries pick `map.osu`,
whose `[Events]` section holds a video line before the background line. -/
def folderW : SongFolder :=
  ⟨["song.mp3", "map.osu"],
   fun _ => ["[Events]", "Video,0,\"video.avi\"", "0,0,\"bg.png\",0,0", "[TimingPoints]"],
   fun s => s == "bg.png"⟩

/-- C6 witness: the video line is skipped and the background line after it is
still found, end to end on `folderW`. -/
theorem events_video_skip_witness :
    scanEvents (fun s => s == "bg.png") true ["Video,0,\"video.avi\"", "0,0,\"bg.png\",0,0"]
      = scanEvents (fun s => s == "bg.png") true ["0,0,\"bg.png\",0,0"] ∧
    get_osu_background folderW = some "bg.png" := by
  exact ⟨events_video_skip.1 (fun s => s == "bg.png") "Video,0,\"video.avi\""
      ["0,0,\"bg.png\",0,0"] (by decide), by decide⟩

theorem scanEvents_sound (ex : String → Bool) :
    ∀ (lines : List String) (inEv : Bool) (c : String),
      scanEvents ex inEv lines = some c →
      ex c = true ∧ pyLower (pySuffix c) ∈ imageExts := by
  intro lines
  induction lines with
  | nil =>
    intro inEv c h
    exact absurd h (by simp [scanEvents])
  | cons line rest ih =>
    intro inEv c h
    simp only [scanEvents] at h
    by_cases h1 : pyStrip line = ""
    · rw [if_pos h1] at h
      exact ih _ _ h
    · rw [if_neg h1] at h
      by_cases h2 : pyStartsWith (pyStrip line) "[Events]" = true
      · rw [if_pos h2] at h
        exact ih _ _ h
      · rw [if_neg h2] at h
        cases inEv with
        | false =>
          rw [if_neg (by simp)] at h
          exact ih _ _ h
        | true =>
          rw [if_pos rfl] at h
          by_cases h3 : pyStartsWith (pyStrip line) "[" = true
          · rw [if_pos h3] at h
            exact absurd h (by simp)
          · rw [if_neg h3] at h
            by_cases h4 : pyStartsWith (pyStrip line) "Video," = true
            · rw [if_pos h4] at h
              exact ih _ _ h
            · rw [if_neg h4] at h
              by_cases h5 : 2 < ((pySplitComma (pyStrip line)).map pyStrip).length
              · rw [if_pos h5] at h
                by_cases h6 : candOk ex (lineCandidate (pyStrip line))
                · rw [if_pos h6] at h
                  cases h
                  exact ⟨h6.2.1, h6.2.2⟩
                · rw [if_neg h6] at h
                  exact ih _ _ h
              · rw [if_neg h5] at h
                exact ih _ _ h

/-- C7: background resolution returns a candidate only if it exists on disk
AND its extension (lower-cased) is one of `.jpg`, `.jpeg`, `.png`, `.bmp`,
`.gif`; an in-events line whose candidate fails that acceptance test is
skipped (so a missing file or a foreign extension leaves the result absent,
and the first accepted candidate is the one returned). -/
theorem background_result_valid :
    (∀ (fd : SongFolder) (c : String),
        get_osu_background fd = some c →
        fd.ex c = true ∧ pyLower (pySuffix c) ∈ imageExts) ∧
    (∀ (ex : String → Bool) (line : String) (rest : List String),
        pyStrip line ≠ "" →
        pyStartsWith (pyStrip line) "[Events]" = false →
        pyStartsWith (pyStrip line) "[" = false →
        pyStartsWith (pyStrip line) "Video," = false →
        ¬ candOk ex (lineCandidate (pyStrip line)) →
        scanEvents ex true (line :: rest) = scanEvents ex true rest) := by
  constructor
  · intro fd c h
    unfold get_osu_background at h
    cases hf : (sortStr fd.entries).find? (fun p => pyLower (pySuffix p) == ".osu") with
    | none =>
      rw [hf] at h
      exact absurd h (by simp)
    | some osu =>
      rw [hf] at h
      exact scanEvents_sound fd.ex (fd.fileLines osu) false c h
  · intro ex line rest h1 h2 h3 h4 h6
    simp only [scanEvents]
    rw [if_neg h1, if_neg (by simp [h2]), if_pos (by trivial), if_neg (by simp [h3]),
      if_neg (by simp [h4])]
    by_cases h5 : 2 < ((pySplitComma (pyStrip line)).map pyStrip).length
    · rw [if_pos h5, if_neg h6]
    · rw [if_neg h5]

/-- C7 witness: on `folderW` the accepted result `bg.png` indeed exists and
has an accepted extension; and with the file missing from disk the same
background line is skipped, leaving the result absent. -/
theorem background_result_valid_witness :
    ((fun s => s == "bg.png") "bg.png" = true
        ∧ pyLower (pySuffix "bg.png") ∈ imageExts) ∧
    scanEvents (fun _ => false) true ["0,0,\"bg.png\",0,0"]
      = scanEvents (fun _ => false) true [] ∧
    get_osu_background ⟨["map.osu"],
        fun _ => ["[Events]", "0,0,\"bg.png\",0,0", "[TimingPoints]"], fun _ => false⟩ = none := by
  refine ⟨background_result_valid.1 folderW "bg.png" (by decide), ?_, by decide⟩
  exact background_result_valid.2 (fun _ => false) "0,0,\"bg.png\",0,0" []
    (by decide) (by decide) (by decide) (by decide) (by decide)

/-! ## C10 -/

/-- C10: indexed playlist access is total and safe — `get_song` returns
`none` for any index outside `[0, len)`, `remove_song` at such an index
leaves the playlist unchanged, and `current_song` returns `none` (instead of
raising) whenever the manager's cursor is out of range for the current
playlist. -/
theorem playlist_index_safety (pl : Playlist) (i : ℤ) (m : PlaylistManager)
    (hi : ¬ (0 ≤ i ∧ i < (pl.songs.length : ℤ))) :
    pl.get_song i = none ∧ pl.remove_song i = pl ∧
    (m.currentPlaylist = some pl → m.currentIndex = i → m.current_song = none) := by
  refine ⟨?_, ?_, ?_⟩
  · unfold Playlist.get_song
    rw [if_neg hi]
  · unfold Playlist.remove_song
    rw [if_neg hi]
  · intro hcp hci
    unfold PlaylistManager.current_song
    rw [hcp]
    dsimp only
    by_cases hz : pl.songs.length = 0
    · rw [if_pos hz]
    · rw [if_neg hz, hci]
      unfold Playlist.get_song
      rw [if_neg hi]

/-- C10 witness: a stale cursor (5) on a two-song playlist. -/
theorem playlist_index_safety_witness :
    Playlist.get_song ⟨"p", [("a", "A"), ("b", "B")]⟩ 5 = none ∧
    PlaylistManager.current_song ⟨[], some ⟨"p", [("a", "A"), ("b", "B")]⟩, 5⟩ = none := by
  have h := playlist_index_safety ⟨"p", [("a", "A"), ("b", "B")]⟩ 5
      ⟨[], some ⟨"p", [("a", "A"), ("b", "B")]⟩, 5⟩ (by decide)
  exact ⟨h.1, h.2.2 rfl rfl⟩

/-! ## C8 -/

theorem findByName_name {n : String} :
    ∀ {l : List Playlist} {ex : Playlist}, findByName n l = some ex → ex.name = n := by
  intro l
  induction l with
  | nil => intro ex h; exact absurd h (by simp [findByName])
  | cons pl rest ih =>
    intro ex h
    unfold findByName at h
    by_cases hn : pl.name = n
    · rw [if_pos hn] at h
      cases h
      exact hn
    · rw [if_neg hn] at h
      exact ih h

theorem setSongsOfFirst_spec (n : String) (ss : List (String × String)) :
    ∀ (l : List Playlist) (ex : Playlist), findByName n l = some ex →
      (setSongsOfFirst n ss l).length = l.length ∧
      findByName n (setSongsOfFirst n ss l) = some ⟨n, ss⟩ ∧
      countName n (setSongsOfFirst n ss l) = countName n l := by
  intro l
  induction l with
  | nil => intro ex h; exact absurd h (by simp [findByName])
  | cons pl rest ih =>
    intro ex h
    by_cases hn : pl.name = n
    · unfold setSongsOfFirst
      rw [if_pos hn]
      refine ⟨by simp, ?_, ?_⟩
      · unfold findByName
        rw [if_pos hn]
        rw [show ({ pl with songs := ss } : Playlist) = ⟨n, ss⟩ by rw [← hn]]
      · unfold countName
        rw [if_pos hn]
    · unfold findByName at h
      rw [if_neg hn] at h
      obtain ⟨h1, h2, h3⟩ := ih ex h
      unfold setSongsOfFirst
      rw [if_neg hn]
      refine ⟨by simp [h1], ?_, ?_⟩
      · unfold findByName
        rw [if_neg hn]
        exact h2
      · unfold countName
        rw [if_neg hn, h3]

/-- C8 (amended): `load_playlist` merges when an existing *nonempty*
playlist carries the loaded record's name: the manager keeps the same number
of playlists, the count of playlists with that name is unchanged, the first
such entry now holds the freshly loaded song list, and that updated entry is
returned.  The rest of the claim fails: `create_playlist` performs no name
check at all (see the counterexample), and because the merge guard
`if existing:` uses Python truthiness through `Playlist.__len__`, loading
onto an existing *empty* playlist also appends a duplicate. -/
theorem load_playlist_merge (disk : PlaylistDisk) (m : PlaylistManager) (name : String)
    (data : PlaylistData) (ex : Playlist)
    (hf : disk.hasFile name = true) (hp : disk.parse name = some data)
    (hex : m.get_playlist_by_name data.name = some ex) (hne : ex.songs ≠ []) :
    (m.load_playlist disk name).1.playlists.length = m.playlists.length ∧
    (m.load_playlist disk name).2
      = some ⟨data.name, (Playlist.from_dict disk.pathExists data).songs⟩ ∧
    countName data.name (m.load_playlist disk name).1.playlists
      = countName data.name m.playlists ∧
    (m.load_playlist disk name).1.get_playlist_by_name data.name
      = some ⟨data.name, (Playlist.from_dict disk.pathExists data).songs⟩ := by
  have hexn : ex.name = data.name := findByName_name hex
  have hlen : ex.songs.length ≠ 0 := by
    intro h
    exact hne (List.length_eq_zero.mp h)
  have hpl : (Playlist.from_dict disk.pathExists data).name = data.name := rfl
  obtain ⟨l1, l2, l3⟩ := setSongsOfFirst_spec data.name
      (Playlist.from_dict disk.pathExists data).songs m.playlists ex hex
  have hres : m.load_playlist disk name
      = (⟨setSongsOfFirst data.name (Playlist.from_dict disk.pathExists data).songs m.playlists,
            m.currentPlaylist, m.currentIndex⟩,
         some ⟨ex.name, (Playlist.from_dict disk.pathExists data).songs⟩) := by
    unfold PlaylistManager.load_playlist
    rw [hf]
    simp only [Bool.true_eq_false, if_false, hp]
    have hge : m.get_playlist_by_name (Playlist.from_dict disk.pathExists data).name
        = some ex := hex
    rw [hge]
    dsimp only
    rw [if_pos hlen]
    rfl
  rw [hres]
  refine ⟨l1, ?_, l3, l2⟩
  dsimp only
  rw [hexn]

/-- C8 counterexample: `create_playlist` appends unconditionally, so creating
two playlists named `"x"` leaves two distinct entries with that name in the
manager — not a single merged logical playlist. -/
theorem create_playlist_duplicate_cex :
    countName "x" ((PlaylistManager.create_playlist
        (PlaylistManager.create_playlist ⟨[], none, 0⟩ "x").1 "x").1.playlists) = 2 := by
  decide

/-- C8 witness: loading a record named `"x"` onto a manager already holding a
nonempty playlist `"x"` merges (length 2 stays 2, the entry is updated to the
loaded, existence-filtered song list). -/
theorem load_playlist_merge_witness :
    (PlaylistManager.load_playlist ⟨fun _ => true, fun _ => some ⟨"x", [("a", "A"), ("b", "B")]⟩,
        fun p => p == "a"⟩ ⟨[⟨"x", [("old", "O")]⟩, ⟨"y", []⟩], none, 0⟩ "x").1.playlists.length
      = 2 ∧
    (PlaylistManager.load_playlist ⟨fun _ => true, fun _ => some ⟨"x", [("a", "A"), ("b", "B")]⟩,
        fun p => p == "a"⟩ ⟨[⟨"x", [("old", "O")]⟩, ⟨"y", []⟩], none, 0⟩ "x").2
      = some ⟨"x", [("a", "A")]⟩ := by
  have h := load_playlist_merge ⟨fun _ => true, fun _ => some ⟨"x", [("a", "A"), ("b", "B")]⟩,
      fun p => p == "a"⟩ ⟨[⟨"x", [("old", "O")]⟩, ⟨"y", []⟩], none, 0⟩ "x"
      ⟨"x", [("a", "A"), ("b", "B")]⟩ ⟨"x", [("old", "O")]⟩ rfl rfl (by decide) (by decide)
  refine ⟨h.1, ?_⟩
  rw [h.2.1]
  decide

/-- C9 witness: the removal characterization at `"311328 Foo"`, and
idempotence there (the stripped result `"Foo"` has no numeric prefix). -/
theorem strip_leading_numbers_spec_witness :
    strip_leading_numbers (String.mk ([] ++ ['3', '1', '1', '3', '2', '8'] ++ [' ']
        ++ ['F', 'o', 'o'])) = String.mk ['F', 'o', 'o'] ∧
    strip_leading_numbers (strip_leading_numbers "311328 Foo")
      = strip_leading_numbers "311328 Foo" := by
  exact ⟨strip_leading_numbers_spec.1 [] ['3', '1', '1', '3', '2', '8'] [' ']
      ['F', 'o', 'o'] (by decide) (by decide) (by decide) (by decide) (by decide) (by decide),
    strip_leading_numbers_spec.2 "311328 Foo" (by decide)⟩

end OsuBrowser
